import Mathlib

/-!
Verification of the delayed-load parser object of the pdfmm/podofo PDF
library (src/src/podofo/base/PdfParserObject.cpp) against its
natural-language specification. The file shallowly embeds the data model
(PDF variant values, references, the parser-object state) and the
operations `ReadObjectNumber`, `ParseFile`, `ParseFileComplete`,
`ParseStream`, `DelayedLoadStreamImpl` and `FreeObjectMemory`, then proves
theorems about them.

The tokenizer / value parser, the input device and the encryption context
are external collaborators of the core (spec section 6); their outputs are
modelled as inputs (token scripts, a byte-list device, an abstract
decryption transform).
-/

namespace PdfParser

/-- Error kinds of the library (EPdfError) that the modelled code can
raise. -/
inductive PdfError where
  | invalidHandle
  | unexpectedEOF
  | noObject
  | invalidStreamLength
  | invalidDataType
  | noNumber
  deriving DecidableEq, Repr

/-- A PDF object reference: object number (uint32) and generation number
(uint16), as in PdfReference.h. -/
structure PdfReference where
  objNr : Nat
  genNr : Nat
  deriving DecidableEq, Repr

/-- The tagged union PdfVariant. The floating-point payload of `real` is
never inspected by any of the modelled operations, so it is omitted
(floating point is not representable in the embedding); `rawdata` payload
is likewise never inspected here. Dictionaries are association lists with
unique, case-sensitive name keys; values are variants (the PdfObject
wrapper of dictionary entries adds nothing the modelled code reads). -/
inductive PdfVariant where
  | null
  | bool (b : Bool)
  | number (n : Int)
  | real
  | string (s : String)
  | name (s : String)
  | array (items : List PdfVariant)
  | dict (entries : List (String × PdfVariant))
  | reference (r : PdfReference)
  | rawdata
  deriving Repr

/-- PdfVariant::IsDictionary. -/
def PdfVariant.isDictionary : PdfVariant → Bool
  | .dict _ => true
  | _ => false

/-- PdfDictionary::GetKey: first entry with the given key (keys are
unique), or none. It does not resolve references. -/
def dictGetKey (entries : List (String × PdfVariant)) (key : String) :
    Option PdfVariant :=
  match entries with
  | [] => none
  | (k, v) :: rest => if k = key then some v else dictGetKey rest key

/-- PdfVariant::GetDictionary: the dictionary entries, or an
InvalidDataType error when the active alternative is not a dictionary. -/
def getDictionary (v : PdfVariant) :
    Except PdfError (List (String × PdfVariant)) :=
  match v with
  | .dict entries => .ok entries
  | _ => .error .invalidDataType

/-- C strncmp(tok, kw, strlen(kw)) == 0, as used at PdfParserObject.cpp
lines 189, 201 and 206 with kw = "endobj" / "stream" (length 6): true
exactly when kw is an initial segment of tok. -/
def strncmpMatches (tok kw : String) : Bool :=
  matchesFirstChars tok.data kw.data
where
  /-- Compare character lists until the pattern is exhausted. -/
  matchesFirstChars : List Char → List Char → Bool
  | _, [] => true
  | [], _ :: _ => false
  | c :: cs, k :: ks => c = k && matchesFirstChars cs ks

/-- The seekable input device: a byte sequence plus the read cursor. -/
structure Device where
  data : List Nat
  pos : Nat
  deriving Repr

/-- PdfInputDevice::Look — peek the byte at the cursor, none at EOF. -/
def deviceLook (d : Device) : Option Nat :=
  d.data[d.pos]?

/-- PdfTokenizer::IsWhitespace. Modelled from the spec: the tokenizer is
an external collaborator whose implementation is not under src/; the PDF
whitespace set is NUL, TAB, LF, FF, CR, SPACE. Only CR (13) and LF (10)
matter to the claims settled here. -/
def isPdfWhitespace (c : Nat) : Bool :=
  c = 0 || c = 9 || c = 10 || c = 12 || c = 13 || c = 32

/-- Lines 242..255 of PdfParserObject.cpp: after seeking to the recorded
stream offset, consume the end-of-line marker that follows the `stream`
keyword. Look at one byte; if it is whitespace consume it, and if it was
CR also consume a directly following LF. -/
def consumeStreamEOL (d : Device) : Device :=
  match deviceLook d with
  | none => d
  | some c =>
    if isPdfWhitespace c then
      if c = 13 then
        match deviceLook { d with pos := d.pos + 1 } with
        | some c2 =>
          if c2 = 10 then { d with pos := d.pos + 1 + 1 }
          else { d with pos := d.pos + 1 }
        | none => { d with pos := d.pos + 1 }
      else { d with pos := d.pos + 1 }
    else d

/-- The encryption context (PdfEncrypt), reduced to the single query the
modelled code performs on it: IsMetadataEncrypted. The decrypting
input-stream wrapper it creates is modelled as an abstract transform
passed separately. -/
structure EncryptCtx where
  metadataEncrypted : Bool
  deriving DecidableEq, Repr

/-- The mutable state of a PdfParserObject: the PdfObject base fields that
the modelled code reads or writes (variant value, indirect reference,
dirty flag, the two delayed-load-done flags, the optional stream) plus the
PdfParserObject members m_lOffset, m_pEncrypt, m_bIsTrailer,
m_bLoadOnDemand, m_bStream and m_lStreamOffset. `devicePos` tracks the
shared device read cursor where the code seeks or records it. -/
structure ParserState where
  variant : PdfVariant := .null
  ref : PdfReference := ⟨0, 0⟩
  offset : Int := 0
  devicePos : Nat := 0
  dirty : Bool := false
  isTrailer : Bool := false
  loadOnDemand : Bool := false
  encrypted : Option EncryptCtx := none
  delayedLoadDone : Bool := false
  delayedLoadStreamDone : Bool := false
  hasStreamToParse : Bool := false
  streamOffset : Nat := 0
  stream : Option (List Nat) := none
  deriving Repr

/-- The PdfParserObject constructor (lines 57..91): a null value, delayed
loading of body and stream enabled (both done-flags false), no stream to
parse, m_bLoadOnDemand false, and m_lOffset the given offset or, when the
given offset is negative, the device's current position. A freshly
constructed object is not dirty (PdfObject.h: the dirty flag is set only
by modification after construction). -/
def initPdfParserObject (lOffset : Int) (devTell : Nat) : ParserState :=
  { offset := if lOffset < 0 then Int.ofNat devTell else lOffset,
    devicePos := devTell }

/-- PdfParserObject::SetLoadOnDemand. Modelled from the spec: the setter
lives in PdfParserObject.h, which is not under src/; per the spec the
parser chooses whether demand loading is enabled before calling
ParseFile. -/
def setLoadOnDemand (b : Bool) (st : ParserState) : ParserState :=
  { st with loadOnDemand := b }

/-- The results the external tokenizer / value parser produces while the
body of one object is read (spec section 6): the first token after the
header, the variant GetNextVariant yields starting at that token (or the
error it raises), the token after the value, and the device position right
after that token (the value Tell() returns at line 209). -/
structure TokenizerRun where
  firstToken : Option String
  value : Except PdfError PdfVariant
  afterValueToken : Option String
  afterValuePos : Nat

/-- The results the external tokenizer produces while the
"<num> <gen> obj" header is read: the two GetNextNumber results (or the
errors they raise), the next token compared against "obj" by IsNextToken
(full-token comparison), and the device position after the header. -/
structure HeaderInput where
  num1 : Except PdfError Int
  num2 : Except PdfError Int
  objToken : String
  endPos : Nat

/-- PdfReference built at line 101: the int64 object and generation
numbers are cast to uint32 and uint16, i.e. reduced modulo 2^32 and
2^16. -/
def mkReference (obj gen : Int) : PdfReference :=
  ⟨(obj % ((2 : Int) ^ 32)).toNat, (gen % ((2 : Int) ^ 16)).toNat⟩

/-- PdfParserObject::ReadObjectNumber (lines 93..116): read two numbers,
set the indirect reference, then require the next token to be exactly
"obj", else raise NoObject. Tokenizer errors while reading the numbers
propagate. -/
def readObjectNumber (hdr : HeaderInput) (st : ParserState) :
    Except PdfError ParserState :=
  match hdr.num1 with
  | .error e => .error e
  | .ok obj =>
    match hdr.num2 with
    | .error e => .error e
    | .ok gen =>
      let st := { st with ref := mkReference obj gen }
      if hdr.objToken = "obj" then .ok st else .error .noObject

/-- Line 125..126 of ParseFile: seek the device to the recorded offset
when that offset is nonnegative. -/
def seekRecordedOffset (st : ParserState) : ParserState :=
  if 0 ≤ st.offset then { st with devicePos := st.offset.toNat } else st

/-- PdfParserObject::ParseFileComplete (lines 167..217), the body-load
hook. Seeks to m_lOffset; reads the first token (EOF raises
UnexpectedEOF); a token whose first six characters are "endobj" leaves
the object as the null value (empty object). Otherwise the value is
parsed, the dirty flag cleared, and, unless the object is a trailer, the
trailing token is read (EOF raises UnexpectedEOF): a token starting with
"endobj" is accepted; a token starting with "stream" after a dictionary
value records the current device position as the stream start and marks
the object as having a stream to parse; any other token raises
NoObject. The entry seek's cursor update is folded into each returned
state (only returned states are observable). -/
def parseFileComplete (run : TokenizerRun) (bIsTrailer : Bool)
    (st0 : ParserState) : Except PdfError ParserState :=
  match run.firstToken with
  | none => .error .unexpectedEOF
  | some tok =>
    if strncmpMatches tok "endobj" then
      .ok { st0 with devicePos := st0.offset.toNat }
    else
      match run.value with
      | .error e => .error e
      | .ok v =>
        if bIsTrailer then
          .ok { st0 with devicePos := st0.offset.toNat,
                         variant := v, dirty := false }
        else
          match run.afterValueToken with
          | none => .error .unexpectedEOF
          | some tok2 =>
            if strncmpMatches tok2 "endobj" then
              .ok { st0 with devicePos := st0.offset.toNat,
                             variant := v, dirty := false }
            else if v.isDictionary && strncmpMatches tok2 "stream" then
              .ok { st0 with variant := v, dirty := false,
                             hasStreamToParse := true,
                             streamOffset := run.afterValuePos,
                             devicePos := run.afterValuePos }
            else .error .noObject

/-- PdfObject::DelayedLoad driving the DelayedLoadImpl hook, which
PdfParserObject overrides with ParseFileComplete(m_bIsTrailer)
(lines 320..323). Modelled from the spec: the wrapper body lives in
PdfObject.cpp, which is not under src/; per PdfObject.h and spec
section 4.2 it is a no-op when loading is already done, otherwise it runs
the hook and marks loading done. -/
def delayedLoad (run : TokenizerRun) (st : ParserState) :
    Except PdfError ParserState :=
  if st.delayedLoadDone then .ok st
  else
    match parseFileComplete run st.isTrailer st with
    | .error e => .error e
    | .ok st2 => .ok { st2 with delayedLoadDone := true }

/-- PdfParserObject::ParseFile (lines 118..156): seek to the recorded
offset; unless the object is a trailer, read and validate the
"<num> <gen> obj" header; record the post-header device position as the
new offset, store the encryption context and the trailer flag; when
demand loading is disabled, immediately force the body load through the
delayed-load machinery (the stream is not loaded here). The null-device
InvalidHandle guard is not modelled: the embedding always supplies a
device, as guaranteed by the first constructor. -/
def parseFile (hdr : HeaderInput) (run : TokenizerRun)
    (enc : Option EncryptCtx) (bIsTrailer : Bool) (st0 : ParserState) :
    Except PdfError ParserState :=
  let st := seekRecordedOffset st0
  match (if bIsTrailer then .ok st
         else Except.map (fun s => { s with devicePos := hdr.endPos })
                (readObjectNumber hdr st)) with
  | .error e => .error e
  | .ok st1 =>
    let st2 := { st1 with offset := Int.ofNat st1.devicePos,
                          encrypted := enc, isTrailer := bIsTrailer }
    if st2.loadOnDemand then .ok st2
    else delayedLoad run st2

/-- Lines 259..285 of ParseStream: resolve the /Length key of the stream
dictionary. A direct number is used as is; an indirect reference is
resolved through the object store (`getObject`, which per spec section
4.3 returns the referenced object fully loaded, or none when it cannot be
loaded): an unloadable reference raises InvalidHandle, a resolved
non-number raises InvalidStreamLength; a /Length of any other form,
absent included, raises InvalidStreamLength. -/
def resolveStreamLength (entries : List (String × PdfVariant))
    (getObject : PdfReference → Option PdfVariant) : Except PdfError Int :=
  match dictGetKey entries "Length" with
  | some (.number n) => .ok n
  | some (.reference r) =>
    match getObject r with
    | none => .error .invalidHandle
    | some o =>
      match o with
      | .number n => .ok n
      | _ => .error .invalidStreamLength
  | _ => .error .invalidStreamLength

/-- The loop at lines 295..299: scan the /Filter array and remember
whether any element is the name "Crypt". -/
def containsCryptName : List PdfVariant → Bool
  | [] => false
  | v :: rest =>
    (match v with
     | .name s => s = "Crypt"
     | _ => false) || containsCryptName rest

/-- Lines 290..301 of ParseStream: when an encryption context is in
effect and it reports metadata as not encrypted, and the object's own
/Filter value is an array containing the name "Crypt", the context is
dropped (m_pEncrypt is set to null) for this stream; in every other case
the context is kept unchanged. -/
def effectiveEncrypt (enc : Option EncryptCtx)
    (entries : List (String × PdfVariant)) : Option EncryptCtx :=
  match enc with
  | none => none
  | some ctx =>
    if !ctx.metadataEncrypted then
      match dictGetKey entries "Filter" with
      | some (.array items) => if containsCryptName items then none else enc
      | _ => enc
    else enc

/-- PdfStream::SetRawData reading `len` bytes from the device at its
current position. Modelled from the spec: PdfStream is an external
collaborator; the spec says the loader "reads exactly Length raw bytes
from the device". -/
def readRawData (d : Device) (len : Int) : List Nat :=
  (d.data.drop d.pos).take len.toNat

/-- The bytes a stream load delivers before any decryption transform:
starting right after the end-of-line marker consumed after the `stream`
keyword at `streamOffset`, take `len` bytes. -/
def rawStreamBytes (data : List Nat) (streamOffset : Nat) (len : Int) :
    List Nat :=
  readRawData (consumeStreamEOL { data := data, pos := streamOffset }) len

/-- PdfParserObject::ParseStream (lines 223..318). Seek to the recorded
stream offset and consume the end-of-line marker; save the device
position (fLoc, line 257); resolve /Length from the body dictionary —
resolving an indirect /Length through the object store may move the
device cursor, modelled by the arbitrary `posAfterResolve`; seek back to
the saved position (line 287); drop the encryption context when metadata
is unencrypted and the /Filter array contains "Crypt"; then read the
Length bytes, through the decrypting input stream keyed by the object's
own reference when a context remains (`decrypt`), raw otherwise; store
them as the stream and clear the dirty flag. The null-device /
null-document InvalidHandle guard is not modelled: the embedding always
supplies both. -/
def parseStream (dev0 : Device)
    (getObject : PdfReference → Option PdfVariant) (posAfterResolve : Nat)
    (decrypt : PdfReference → List Nat → List Nat) (st : ParserState) :
    Except PdfError ParserState :=
  let dev := consumeStreamEOL { dev0 with pos := st.streamOffset }
  let fLoc := dev.pos
  match getDictionary st.variant with
  | .error e => .error e
  | .ok entries =>
    match resolveStreamLength entries getObject with
    | .error e => .error e
    | .ok len =>
      let devR : Device := { dev with pos := posAfterResolve }
      let devF : Device := { devR with pos := fLoc }
      let bytes := readRawData devF len
      let raw :=
        match effectiveEncrypt st.encrypted entries with
        | some _ => decrypt st.ref bytes
        | none => bytes
      .ok { st with stream := some raw, dirty := false,
                    devicePos := fLoc + bytes.length }

/-- Lines 302..310 of ParseStream, given the already-adjusted encryption
context: the stored stream bytes are the device bytes pushed through the
decrypting input stream keyed by the object's own reference when a
context remains in effect, and the raw device bytes otherwise. -/
def streamTransform (enc : Option EncryptCtx)
    (entries : List (String × PdfVariant))
    (decrypt : PdfReference → List Nat → List Nat) (ref : PdfReference)
    (bytes : List Nat) : List Nat :=
  match effectiveEncrypt enc entries with
  | some _ => decrypt ref bytes
  | none => bytes

/-- PdfParserObject::DelayedLoadStreamImpl (lines 325..345): when the
body-load marked a stream to parse, run ParseStream (errors propagate
with an enriched callstack); otherwise do nothing. -/
def delayedLoadStreamImpl (dev : Device)
    (getObject : PdfReference → Option PdfVariant) (posAfterResolve : Nat)
    (decrypt : PdfReference → List Nat → List Nat) (st : ParserState) :
    Except PdfError ParserState :=
  if st.hasStreamToParse then
    parseStream dev getObject posAfterResolve decrypt st
  else .ok st

/-- PdfObject::DelayedLoadStream driving the DelayedLoadStreamImpl hook.
Modelled from the spec: the wrapper body lives in PdfObject.cpp, which is
not under src/; per PdfObject.h and spec section 4.2 it is a no-op when
stream loading is already done, otherwise it runs the hook and marks
stream loading done. -/
def delayedLoadStream (dev : Device)
    (getObject : PdfReference → Option PdfVariant) (posAfterResolve : Nat)
    (decrypt : PdfReference → List Nat → List Nat) (st : ParserState) :
    Except PdfError ParserState :=
  if st.delayedLoadStreamDone then .ok st
  else
    match delayedLoadStreamImpl dev getObject posAfterResolve decrypt st with
    | .error e => .error e
    | .ok st2 => .ok { st2 with delayedLoadStreamDone := true }

/-- PdfParserObject::FreeObjectMemory (lines 347..356): when the object
is load-on-demand and either `force` holds or the object is not dirty,
clear the value (PdfObject::Clear resets to the null value and the clean
dirty flag, per its documentation in PdfObject.h — the implementation is
not under src/), free the stream and re-enable both kinds of delayed
loading; otherwise leave the object untouched. -/
def freeObjectMemory (force : Bool) (st : ParserState) : ParserState :=
  if st.loadOnDemand && (force || !st.dirty) then
    { st with variant := .null, dirty := false, stream := none,
              delayedLoadDone := false, delayedLoadStreamDone := false }
  else st

lemma consumeStreamEOL_data (d : Device) :
    (consumeStreamEOL d).data = d.data := by
  unfold consumeStreamEOL
  repeat' split
  all_goals rfl

lemma consumeStreamEOL_mk_data (data : List Nat) (o : Nat) :
    consumeStreamEOL ⟨data, o⟩ = ⟨data, (consumeStreamEOL ⟨data, o⟩).pos⟩ := by
  have h := consumeStreamEOL_data ⟨data, o⟩
  cases hc : consumeStreamEOL ⟨data, o⟩ with
  | mk dta p =>
    rw [hc] at h
    simp at h
    simp [h]

/-- C3: for every stream-load, the end-of-line marker consumed right
after the `stream` keyword (consumeStreamEOL, invoked by parseStream at
the recorded stream offset) is exactly: 2 bytes for CR LF, 1 byte for a
lone LF, and 1 byte for a bare CR not followed by LF — the byte after
that CR, and the byte at EOF position, are left as stream data. -/
theorem consumeStreamEOL_terminator (data : List Nat) (o : Nat) :
    (data[o]? = some 13 → data[o + 1]? = some 10 →
      consumeStreamEOL ⟨data, o⟩ = ⟨data, o + 2⟩) ∧
    (data[o]? = some 10 → consumeStreamEOL ⟨data, o⟩ = ⟨data, o + 1⟩) ∧
    (∀ b, data[o]? = some 13 → data[o + 1]? = some b → b ≠ 10 →
      consumeStreamEOL ⟨data, o⟩ = ⟨data, o + 1⟩) ∧
    (data[o]? = some 13 → data[o + 1]? = none →
      consumeStreamEOL ⟨data, o⟩ = ⟨data, o + 1⟩) := by
  refine ⟨?_, ?_, ?_, ?_⟩
  · intro h1 h2
    simp [consumeStreamEOL, deviceLook, h1, h2, isPdfWhitespace]
  · intro h1
    simp [consumeStreamEOL, deviceLook, h1, isPdfWhitespace]
  · intro b h1 h2 hb
    simp [consumeStreamEOL, deviceLook, h1, h2, isPdfWhitespace, hb]
  · intro h1 h2
    simp [consumeStreamEOL, deviceLook, h1, h2, isPdfWhitespace]

/-- Witness for consumeStreamEOL_terminator at concrete devices. -/
theorem consumeStreamEOL_terminator_witness :
    consumeStreamEOL ⟨[13, 10, 72], 0⟩ = ⟨[13, 10, 72], 2⟩ ∧
    consumeStreamEOL ⟨[10, 72], 0⟩ = ⟨[10, 72], 1⟩ ∧
    consumeStreamEOL ⟨[13, 72], 0⟩ = ⟨[13, 72], 1⟩ := by
  refine ⟨?_, ?_, ?_⟩
  · exact (consumeStreamEOL_terminator [13, 10, 72] 0).1 rfl rfl
  · exact (consumeStreamEOL_terminator [10, 72] 0).2.1 rfl
  · exact (consumeStreamEOL_terminator [13, 72] 0).2.2.1 72 rfl rfl (by decide)

/-- C7: FreeObjectMemory(force) clears the body value and the stream and
re-enables both delayed-load flags exactly when the object is
load-on-demand and either force holds or the object is not dirty; in all
other cases the state is left entirely unchanged. -/
theorem freeObjectMemory_spec (st : ParserState) (force : Bool) :
    (st.loadOnDemand = true → (force = true ∨ st.dirty = false) →
      freeObjectMemory force st =
        { st with variant := .null, dirty := false, stream := none,
                  delayedLoadDone := false,
                  delayedLoadStreamDone := false }) ∧
    (st.loadOnDemand = false → freeObjectMemory force st = st) ∧
    (st.loadOnDemand = true → force = false → st.dirty = true →
      freeObjectMemory force st = st) := by
  refine ⟨?_, ?_, ?_⟩
  · intro h hf
    rcases hf with hf | hf <;> simp [freeObjectMemory, h, hf]
  · intro h
    simp [freeObjectMemory, h]
  · intro h hf hd
    simp [freeObjectMemory, h, hf, hd]

/-- Witness for freeObjectMemory_spec at concrete states. -/
theorem freeObjectMemory_spec_witness :
    freeObjectMemory false
        { variant := .number 3, loadOnDemand := true, dirty := false,
          stream := some [1, 2], delayedLoadDone := true,
          delayedLoadStreamDone := true } =
      { variant := .null, loadOnDemand := true, dirty := false,
        stream := none, delayedLoadDone := false,
        delayedLoadStreamDone := false } ∧
    freeObjectMemory false
        { variant := .number 3, loadOnDemand := true, dirty := true } =
      { variant := .number 3, loadOnDemand := true, dirty := true } := by
  constructor
  · exact (freeObjectMemory_spec
      { variant := .number 3, loadOnDemand := true, dirty := false,
        stream := some [1, 2], delayedLoadDone := true,
        delayedLoadStreamDone := true } false).1 rfl (Or.inr rfl)
  · exact (freeObjectMemory_spec
      { variant := .number 3, loadOnDemand := true, dirty := true }
      false).2.2 rfl rfl rfl

/-- C8: a freshly-parsed, unmutated object reports not-dirty. A freshly
constructed parser object is clean; a successful body-load never leaves
the dirty flag set when it was clean (the empty-object `endobj` branch
leaves the untouched clean flag in place), and whenever a value is
actually parsed the flag is cleared outright; a successful stream-load
clears the flag after storing the stream bytes. -/
theorem parsed_objects_not_dirty :
    (∀ (lOffset : Int) (devTell : Nat),
      (initPdfParserObject lOffset devTell).dirty = false) ∧
    (∀ run t st st2, parseFileComplete run t st = .ok st2 →
      st.dirty = false → st2.dirty = false) ∧
    (∀ run t st st2 tok, run.firstToken = some tok →
      strncmpMatches tok "endobj" = false →
      parseFileComplete run t st = .ok st2 → st2.dirty = false) ∧
    (∀ dev go p dec st st2, parseStream dev go p dec st = .ok st2 →
      st2.dirty = false) := by
  refine ⟨?_, ?_, ?_, ?_⟩
  · intro lOffset devTell
    rfl
  · intro run t st st2 h hd
    unfold parseFileComplete at h
    repeat' split at h
    all_goals first
      | (cases h; first | exact hd | rfl)
      | exact absurd h (by simp)
  · intro run t st st2 tok h1 h2 h
    unfold parseFileComplete at h
    rw [h1] at h
    simp only [h2, Bool.false_eq_true, if_false] at h
    repeat' split at h
    all_goals first
      | (cases h; rfl)
      | exact absurd h (by simp)
  · intro dev go p dec st st2 h
    unfold parseStream at h
    repeat' split at h
    all_goals first
      | (cases h; rfl)
      | exact absurd h (by simp)

/-- Witness for parsed_objects_not_dirty at a concrete empty-object
parse. -/
theorem parsed_objects_not_dirty_witness :
    (parseFileComplete ⟨some "endobj", .ok .null, none, 0⟩ false
      (initPdfParserObject 3 0) = .ok { offset := 3, devicePos := 3 }) ∧
    ParserState.dirty { offset := 3, devicePos := 3 } = false := by
  refine ⟨rfl, ?_⟩
  exact parsed_objects_not_dirty.2.1 ⟨some "endobj", .ok .null, none, 0⟩
    false (initPdfParserObject 3 0) { offset := 3, devicePos := 3 } rfl rfl

lemma parseStream_ok_of_resolve (dev : Device)
    (go : PdfReference → Option PdfVariant) (p : Nat)
    (dec : PdfReference → List Nat → List Nat) (st : ParserState)
    (entries : List (String × PdfVariant)) (len : Int)
    (hv : st.variant = .dict entries)
    (hlen : resolveStreamLength entries go = .ok len) :
    parseStream dev go p dec st =
      .ok { st with
        stream := some (streamTransform st.encrypted entries dec st.ref
          (rawStreamBytes dev.data st.streamOffset len)),
        dirty := false,
        devicePos := (consumeStreamEOL ⟨dev.data, st.streamOffset⟩).pos
          + (rawStreamBytes dev.data st.streamOffset len).length } := by
  unfold parseStream
  rw [hv]
  dsimp only [getDictionary]
  rw [hlen]
  simp [readRawData, rawStreamBytes, consumeStreamEOL_data, streamTransform]

lemma parseStream_error_of_resolve (dev : Device)
    (go : PdfReference → Option PdfVariant) (p : Nat)
    (dec : PdfReference → List Nat → List Nat) (st : ParserState)
    (entries : List (String × PdfVariant)) (e : PdfError)
    (hv : st.variant = .dict entries)
    (hlen : resolveStreamLength entries go = .error e) :
    parseStream dev go p dec st = .error e := by
  unfold parseStream
  rw [hv]
  dsimp only [getDictionary]
  rw [hlen]

/-- C1: stream-loading resolves /Length as follows. A direct number n
makes the load succeed with exactly the n bytes after the end-of-line
marker fed to the (possibly decrypting) store; an indirect reference is
resolved through the object store and must yield a number, which is used
the same way, while a resolved non-number fails with InvalidStreamLength;
a /Length of any other form, absent included, fails with
InvalidStreamLength. -/
theorem parseStream_length_resolution (dev : Device)
    (go : PdfReference → Option PdfVariant) (p : Nat)
    (dec : PdfReference → List Nat → List Nat) (st : ParserState)
    (entries : List (String × PdfVariant))
    (hv : st.variant = .dict entries) :
    (∀ n, dictGetKey entries "Length" = some (.number n) →
      Except.map ParserState.stream (parseStream dev go p dec st) =
        .ok (some (streamTransform st.encrypted entries dec st.ref
          (rawStreamBytes dev.data st.streamOffset n)))) ∧
    (∀ r n, dictGetKey entries "Length" = some (.reference r) →
      go r = some (.number n) →
      Except.map ParserState.stream (parseStream dev go p dec st) =
        .ok (some (streamTransform st.encrypted entries dec st.ref
          (rawStreamBytes dev.data st.streamOffset n)))) ∧
    (∀ r o, dictGetKey entries "Length" = some (.reference r) →
      go r = some o → (∀ m, o ≠ .number m) →
      parseStream dev go p dec st = .error .invalidStreamLength) ∧
    ((match dictGetKey entries "Length" with
      | some (.number _) => False
      | some (.reference _) => False
      | _ => True) →
      parseStream dev go p dec st = .error .invalidStreamLength) := by
  refine ⟨?_, ?_, ?_, ?_⟩
  · intro n hkey
    have hlen : resolveStreamLength entries go = .ok n := by
      unfold resolveStreamLength
      rw [hkey]
    rw [parseStream_ok_of_resolve dev go p dec st entries n hv hlen]
    rfl
  · intro r n hkey hgo
    have hlen : resolveStreamLength entries go = .ok n := by
      unfold resolveStreamLength
      rw [hkey]
      dsimp only
      rw [hgo]
    rw [parseStream_ok_of_resolve dev go p dec st entries n hv hlen]
    rfl
  · intro r o hkey hgo hnum
    have hlen : resolveStreamLength entries go = .error .invalidStreamLength := by
      unfold resolveStreamLength
      rw [hkey]
      dsimp only
      rw [hgo]
      cases o with
      | number m => exact absurd rfl (hnum m)
      | null => rfl
      | bool b => rfl
      | real => rfl
      | string s => rfl
      | name s => rfl
      | array items => rfl
      | dict d2 => rfl
      | reference r2 => rfl
      | rawdata => rfl
    exact parseStream_error_of_resolve dev go p dec st entries _ hv hlen
  · intro hform
    have hlen : resolveStreamLength entries go = .error .invalidStreamLength := by
      unfold resolveStreamLength
      cases hkey : dictGetKey entries "Length" with
      | none => rfl
      | some v =>
        rw [hkey] at hform
        cases v with
        | number m => exact hform.elim
        | reference r2 => exact hform.elim
        | null => rfl
        | bool b => rfl
        | real => rfl
        | string s => rfl
        | name s => rfl
        | array items => rfl
        | dict d2 => rfl
        | rawdata => rfl
    exact parseStream_error_of_resolve dev go p dec st entries _ hv hlen

/-- Witness for parseStream_length_resolution: a direct /Length 2 loads
the two bytes after the linefeed; a /Length naming a string-valued
object fails with InvalidStreamLength. -/
theorem parseStream_length_resolution_witness :
    Except.map ParserState.stream
      (parseStream ⟨[10, 65, 66, 67], 0⟩ (fun _ => none) 0 (fun _ b => b)
        { variant := .dict [("Length", .number 2)] }) =
      .ok (some [65, 66]) ∧
    parseStream ⟨[10, 65, 66, 67], 0⟩ (fun _ => some (.string "x")) 0
        (fun _ b => b)
        { variant := .dict [("Length", .reference ⟨9, 0⟩)] } =
      .error .invalidStreamLength := by
  constructor
  · have h := (parseStream_length_resolution ⟨[10, 65, 66, 67], 0⟩
      (fun _ => none) 0 (fun _ b => b)
      { variant := .dict [("Length", .number 2)] }
      [("Length", .number 2)] rfl).1 2 rfl
    rw [h]
    rfl
  · exact (parseStream_length_resolution ⟨[10, 65, 66, 67], 0⟩
      (fun _ => some (.string "x")) 0 (fun _ b => b)
      { variant := .dict [("Length", .reference ⟨9, 0⟩)] }
      [("Length", .reference ⟨9, 0⟩)] rfl).2.2.1 ⟨9, 0⟩ (.string "x") rfl rfl
      (fun m h => by cases h)

/-- C2: during a stream-load with an encryption context in effect, when
the context reports metadata as not encrypted and the object's own
/Filter value is an array containing the name Crypt, the raw bytes are
stored without the decryption transform; in every other case — metadata
encrypted, or the /Filter array free of Crypt, or /Filter absent or not
an array — the bytes pass through the decryption transform keyed by the
object's own reference. -/
theorem parseStream_crypt_filter (dev : Device)
    (go : PdfReference → Option PdfVariant) (p : Nat)
    (dec : PdfReference → List Nat → List Nat) (st : ParserState)
    (entries : List (String × PdfVariant)) (ctx : EncryptCtx) (len : Int)
    (hv : st.variant = .dict entries)
    (henc : st.encrypted = some ctx)
    (hlen : resolveStreamLength entries go = .ok len) :
    (∀ items, ctx.metadataEncrypted = false →
      dictGetKey entries "Filter" = some (.array items) →
      containsCryptName items = true →
      Except.map ParserState.stream (parseStream dev go p dec st) =
        .ok (some (rawStreamBytes dev.data st.streamOffset len))) ∧
    (ctx.metadataEncrypted = true →
      Except.map ParserState.stream (parseStream dev go p dec st) =
        .ok (some (dec st.ref (rawStreamBytes dev.data st.streamOffset len)))) ∧
    (∀ items, ctx.metadataEncrypted = false →
      dictGetKey entries "Filter" = some (.array items) →
      containsCryptName items = false →
      Except.map ParserState.stream (parseStream dev go p dec st) =
        .ok (some (dec st.ref (rawStreamBytes dev.data st.streamOffset len)))) ∧
    ((match dictGetKey entries "Filter" with
      | some (.array _) => False
      | _ => True) →
      Except.map ParserState.stream (parseStream dev go p dec st) =
        .ok (some (dec st.ref (rawStreamBytes dev.data st.streamOffset len)))) := by
  have hok := parseStream_ok_of_resolve dev go p dec st entries len hv hlen
  refine ⟨?_, ?_, ?_, ?_⟩
  · intro items hmeta hfil hcrypt
    rw [hok]
    simp [Except.map, streamTransform, effectiveEncrypt, henc, hmeta, hfil, hcrypt]
  · intro hmeta
    rw [hok]
    simp [Except.map, streamTransform, effectiveEncrypt, henc, hmeta]
  · intro items hmeta hfil hcrypt
    rw [hok]
    simp [Except.map, streamTransform, effectiveEncrypt, henc, hmeta, hfil, hcrypt]
  · intro hform
    rw [hok]
    cases hctx : ctx.metadataEncrypted with
    | true => simp [Except.map, streamTransform, effectiveEncrypt, henc, hctx]
    | false =>
      cases hfil : dictGetKey entries "Filter" with
      | none => simp [Except.map, streamTransform, effectiveEncrypt, henc, hctx, hfil]
      | some v =>
        rw [hfil] at hform
        cases v with
        | array items => exact hform.elim
        | null => simp [Except.map, streamTransform, effectiveEncrypt, henc, hctx, hfil]
        | bool b => simp [Except.map, streamTransform, effectiveEncrypt, henc, hctx, hfil]
        | number n => simp [Except.map, streamTransform, effectiveEncrypt, henc, hctx, hfil]
        | real => simp [Except.map, streamTransform, effectiveEncrypt, henc, hctx, hfil]
        | string s => simp [Except.map, streamTransform, effectiveEncrypt, henc, hctx, hfil]
        | name s => simp [Except.map, streamTransform, effectiveEncrypt, henc, hctx, hfil]
        | dict d2 => simp [Except.map, streamTransform, effectiveEncrypt, henc, hctx, hfil]
        | reference r => simp [Except.map, streamTransform, effectiveEncrypt, henc, hctx, hfil]
        | rawdata => simp [Except.map, streamTransform, effectiveEncrypt, henc, hctx, hfil]

/-- Witness for parseStream_crypt_filter: with metadata unencrypted and
/Filter = [Crypt], the bytes are stored raw even though a context is in
effect; with metadata encrypted they pass through the transform (here a
transform that maps every byte to 0). -/
theorem parseStream_crypt_filter_witness :
    Except.map ParserState.stream
      (parseStream ⟨[10, 65, 66], 0⟩ (fun _ => none) 0
        (fun _ b => b.map fun _ => 0)
        { variant := .dict [("Length", .number 2),
                            ("Filter", .array [.name "Crypt"])],
          encrypted := some ⟨false⟩ }) = .ok (some [65, 66]) ∧
    Except.map ParserState.stream
      (parseStream ⟨[10, 65, 66], 0⟩ (fun _ => none) 0
        (fun _ b => b.map fun _ => 0)
        { variant := .dict [("Length", .number 2),
                            ("Filter", .array [.name "Crypt"])],
          encrypted := some ⟨true⟩ }) = .ok (some [0, 0]) := by
  constructor
  · have h := (parseStream_crypt_filter ⟨[10, 65, 66], 0⟩ (fun _ => none) 0
      (fun _ b => b.map fun _ => 0)
      { variant := .dict [("Length", .number 2),
                          ("Filter", .array [.name "Crypt"])],
        encrypted := some ⟨false⟩ }
      [("Length", .number 2), ("Filter", .array [.name "Crypt"])]
      ⟨false⟩ 2 rfl rfl rfl).1 [.name "Crypt"] rfl rfl rfl
    rw [h]
    rfl
  · have h := (parseStream_crypt_filter ⟨[10, 65, 66], 0⟩ (fun _ => none) 0
      (fun _ b => b.map fun _ => 0)
      { variant := .dict [("Length", .number 2),
                          ("Filter", .array [.name "Crypt"])],
        encrypted := some ⟨true⟩ }
      [("Length", .number 2), ("Filter", .array [.name "Crypt"])]
      ⟨true⟩ 2 rfl rfl rfl).2.1 rfl
    rw [h]
    rfl

/-- C9: the device position right after the consumed end-of-line marker
is saved before /Length is resolved and restored before the stream bytes
are read, so the outcome of a stream-load does not depend on where
resolving an indirect /Length through the object store leaves the device
cursor, and the Length bytes read are exactly those starting right after
the marker. -/
theorem parseStream_restores_position (dev : Device)
    (go : PdfReference → Option PdfVariant)
    (dec : PdfReference → List Nat → List Nat) (st : ParserState) :
    (∀ p1 p2, parseStream dev go p1 dec st = parseStream dev go p2 dec st) ∧
    (∀ p entries len, st.variant = .dict entries →
      resolveStreamLength entries go = .ok len →
      Except.map ParserState.stream (parseStream dev go p dec st) =
        .ok (some (streamTransform st.encrypted entries dec st.ref
          (rawStreamBytes dev.data st.streamOffset len)))) := by
  constructor
  · intro p1 p2
    unfold parseStream
    cases hd : getDictionary st.variant with
    | error e => rfl
    | ok entries =>
      cases hlen : resolveStreamLength entries go with
      | error e => rfl
      | ok len => rfl
  · intro p entries len hv hlen
    rw [parseStream_ok_of_resolve dev go p dec st entries len hv hlen]
    rfl

/-- Witness for parseStream_restores_position: two loads that differ only
in where length resolution is pretended to leave the cursor coincide, and
the loaded bytes start right after the linefeed. -/
theorem parseStream_restores_position_witness :
    parseStream ⟨[10, 65, 66, 67], 0⟩ (fun _ => some (.number 3)) 0
        (fun _ b => b)
        { variant := .dict [("Length", .reference ⟨5, 0⟩)] } =
      parseStream ⟨[10, 65, 66, 67], 0⟩ (fun _ => some (.number 3)) 2
        (fun _ b => b)
        { variant := .dict [("Length", .reference ⟨5, 0⟩)] } ∧
    Except.map ParserState.stream
      (parseStream ⟨[10, 65, 66, 67], 0⟩ (fun _ => some (.number 3)) 2
        (fun _ b => b)
        { variant := .dict [("Length", .reference ⟨5, 0⟩)] }) =
      .ok (some [65, 66, 67]) := by
  constructor
  · exact (parseStream_restores_position ⟨[10, 65, 66, 67], 0⟩
      (fun _ => some (.number 3)) (fun _ b => b)
      { variant := .dict [("Length", .reference ⟨5, 0⟩)] }).1 0 2
  · have h := (parseStream_restores_position ⟨[10, 65, 66, 67], 0⟩
      (fun _ => some (.number 3)) (fun _ b => b)
      { variant := .dict [("Length", .reference ⟨5, 0⟩)] }).2 2
      [("Length", .reference ⟨5, 0⟩)] 3 rfl rfl
    rw [h]
    rfl

/-- C4 counterexample: the code compares the trailing token with
strncmp(tok, kw, 6), a six-character prefix comparison. The token
"streamed" is neither `endobj` nor `stream`, so the claim as stated
demands a NoObject error; the code instead accepts it as the `stream`
keyword and marks the object as having a stream to parse. -/
theorem parseFileComplete_trailing_token_cx :
    ("streamed" = "endobj" → False) ∧
    ("streamed" = "stream" → False) ∧
    parseFileComplete ⟨some "<<", .ok (.dict []), some "streamed", 42⟩ false
        (initPdfParserObject 0 0) =
      .ok { variant := .dict [], dirty := false, hasStreamToParse := true,
            streamOffset := 42, devicePos := 42 } ∧
    parseFileComplete ⟨some "<<", .ok (.dict []), some "streamed", 42⟩ false
        (initPdfParserObject 0 0) ≠ .error .noObject := by
  refine ⟨by decide, by decide, rfl, ?_⟩
  intro h
  exact Except.noConfusion h

/-- C4 amended: after a parsed value, the trailing token is compared by
its first six characters — a token beginning with "endobj" is accepted,
a token beginning with "stream" after a dictionary value records the
device position as the stream start and marks the object as having a
stream to parse (without reading stream bytes — the stream field is
untouched); any other trailing token raises a fatal NoObject error. -/
theorem parseFileComplete_trailing_token (run : TokenizerRun)
    (st : ParserState) (tok tok2 : String) (v : PdfVariant)
    (h1 : run.firstToken = some tok)
    (h2 : strncmpMatches tok "endobj" = false)
    (h3 : run.value = .ok v)
    (h4 : run.afterValueToken = some tok2) :
    (strncmpMatches tok2 "endobj" = true →
      parseFileComplete run false st =
        .ok { st with devicePos := st.offset.toNat,
                      variant := v, dirty := false }) ∧
    (strncmpMatches tok2 "endobj" = false → v.isDictionary = true →
      strncmpMatches tok2 "stream" = true →
      parseFileComplete run false st =
        .ok { st with variant := v, dirty := false,
                      hasStreamToParse := true,
                      streamOffset := run.afterValuePos,
                      devicePos := run.afterValuePos }) ∧
    (strncmpMatches tok2 "endobj" = false →
      (v.isDictionary = false ∨ strncmpMatches tok2 "stream" = false) →
      parseFileComplete run false st = .error .noObject) := by
  refine ⟨?_, ?_, ?_⟩
  · intro he
    unfold parseFileComplete
    rw [h1]
    simp [h2, h3, h4, he]
  · intro he hd hs
    unfold parseFileComplete
    rw [h1]
    simp [h2, h3, h4, he, hd, hs]
  · intro he hds
    unfold parseFileComplete
    rw [h1]
    rcases hds with hd | hs
    · simp [h2, h3, h4, he, hd]
    · simp [h2, h3, h4, he, hs]

/-- Witness for parseFileComplete_trailing_token: a dictionary value
followed by the exact keyword `stream` marks the stream, and a
non-dictionary value followed by `stream` raises NoObject. -/
theorem parseFileComplete_trailing_token_witness :
    parseFileComplete ⟨some "<<", .ok (.dict []), some "stream", 9⟩ false
        (initPdfParserObject 0 0) =
      .ok { variant := .dict [], dirty := false, hasStreamToParse := true,
            streamOffset := 9, devicePos := 9 } ∧
    parseFileComplete ⟨some "5", .ok (.number 5), some "stream", 9⟩ false
        (initPdfParserObject 0 0) = .error .noObject := by
  constructor
  · exact (parseFileComplete_trailing_token
      ⟨some "<<", .ok (.dict []), some "stream", 9⟩
      (initPdfParserObject 0 0) "<<" "stream" (.dict []) rfl rfl rfl
      rfl).2.1 rfl rfl rfl
  · exact (parseFileComplete_trailing_token
      ⟨some "5", .ok (.number 5), some "stream", 9⟩
      (initPdfParserObject 0 0) "5" "stream" (.number 5) rfl rfl rfl
      rfl).2.2 rfl (Or.inl rfl)

lemma delayedLoad_not_done (run : TokenizerRun) (st : ParserState)
    (h : st.delayedLoadDone = false) :
    delayedLoad run st =
      Except.map (fun s => { s with delayedLoadDone := true })
        (parseFileComplete run st.isTrailer st) := by
  unfold delayedLoad
  rw [h]
  simp only [Bool.false_eq_true, if_false]
  cases parseFileComplete run st.isTrailer st <;> rfl

/-- C5: ParseFile seeks the device to the recorded offset; for a
non-trailer object it reads the "num gen obj" header and raises NoObject
when the token after the two numbers is not `obj`; when demand loading is
disabled it immediately forces loading through the body-load hook
(parseFileComplete, marking loading done on success), whereas with demand
loading enabled it returns without running the hook. -/
theorem parseFile_seek_header_forcing :
    (∀ st : ParserState, 0 ≤ st.offset →
      (seekRecordedOffset st).devicePos = st.offset.toNat) ∧
    (∀ (hdr : HeaderInput) (run : TokenizerRun) (enc : Option EncryptCtx)
       (st : ParserState) (o g : Int),
      hdr.num1 = .ok o → hdr.num2 = .ok g → hdr.objToken ≠ "obj" →
      parseFile hdr run enc false st = .error .noObject) ∧
    (∀ (hdr : HeaderInput) (run : TokenizerRun) (enc : Option EncryptCtx)
       (st : ParserState) (o g : Int),
      hdr.num1 = .ok o → hdr.num2 = .ok g → hdr.objToken = "obj" →
      st.loadOnDemand = false → st.delayedLoadDone = false →
      parseFile hdr run enc false st =
        Except.map (fun s => { s with delayedLoadDone := true })
          (parseFileComplete run false
            { seekRecordedOffset st with
              ref := mkReference o g, devicePos := hdr.endPos,
              offset := Int.ofNat hdr.endPos, encrypted := enc,
              isTrailer := false })) ∧
    (∀ (hdr : HeaderInput) (run : TokenizerRun) (enc : Option EncryptCtx)
       (st : ParserState) (o g : Int),
      hdr.num1 = .ok o → hdr.num2 = .ok g → hdr.objToken = "obj" →
      st.loadOnDemand = true →
      parseFile hdr run enc false st =
        .ok { seekRecordedOffset st with
              ref := mkReference o g, devicePos := hdr.endPos,
              offset := Int.ofNat hdr.endPos, encrypted := enc,
              isTrailer := false }) := by
  refine ⟨?_, ?_, ?_, ?_⟩
  · intro st h0
    simp [seekRecordedOffset, h0]
  · intro hdr run enc st o g h1 h2 h3
    simp [parseFile, readObjectNumber, h1, h2, h3, Except.map]
  · intro hdr run enc st o g h1 h2 h3 hl hd
    have hsl : (seekRecordedOffset st).loadOnDemand = false := by
      unfold seekRecordedOffset
      split <;> simpa using hl
    have hsd : (seekRecordedOffset st).delayedLoadDone = false := by
      unfold seekRecordedOffset
      split <;> simpa using hd
    simp only [parseFile, readObjectNumber, h1, h2, h3, reduceCtorEq,
      reduceIte, Except.map, hsl, Bool.false_eq_true, if_false]
    rw [delayedLoad_not_done]
    · rfl
    · simpa using hsd
  · intro hdr run enc st o g h1 h2 h3 hl
    have hsl : (seekRecordedOffset st).loadOnDemand = true := by
      unfold seekRecordedOffset
      split <;> simpa using hl
    simp only [parseFile, readObjectNumber, h1, h2, h3, reduceIte,
      Except.map]
    simp [hsl]

/-- Witness for parseFile_seek_header_forcing: a wrong header token
raises NoObject, and a disabled-demand-loading parse of an empty object
runs the hook at once. -/
theorem parseFile_seek_header_forcing_witness :
    parseFile ⟨.ok 7, .ok 0, "oops", 8⟩ ⟨some "endobj", .ok .null, none, 0⟩
        none false (initPdfParserObject 0 0) = .error .noObject ∧
    parseFile ⟨.ok 7, .ok 0, "obj", 8⟩ ⟨some "endobj", .ok .null, none, 0⟩
        none false (initPdfParserObject 0 0) =
      Except.map (fun s => { s with delayedLoadDone := true })
        (parseFileComplete ⟨some "endobj", .ok .null, none, 0⟩ false
          { seekRecordedOffset (initPdfParserObject 0 0) with
            ref := mkReference 7 0, devicePos := 8, offset := Int.ofNat 8,
            encrypted := none, isTrailer := false }) := by
  constructor
  · exact parseFile_seek_header_forcing.2.1 ⟨.ok 7, .ok 0, "oops", 8⟩
      ⟨some "endobj", .ok .null, none, 0⟩ none (initPdfParserObject 0 0)
      7 0 rfl rfl (by decide)
  · exact parseFile_seek_header_forcing.2.2.1 ⟨.ok 7, .ok 0, "obj", 8⟩
      ⟨some "endobj", .ok .null, none, 0⟩ none (initPdfParserObject 0 0)
      7 0 rfl rfl rfl rfl rfl

/-- C6: a body-load whose first token after the header is `endobj`
yields an object with the null value and no stream; in particular the
whole ParseFile pipeline on such input yields the reference built from
the header numbers, the untouched null value, no stream to parse and no
stream bytes. -/
theorem parseFile_empty_object (o g lOffset : Int) (devTell endPos : Nat)
    (run : TokenizerRun) (enc : Option EncryptCtx)
    (hft : run.firstToken = some "endobj") :
    parseFile ⟨.ok o, .ok g, "obj", endPos⟩ run enc false
      (initPdfParserObject lOffset devTell) =
    .ok { variant := .null, ref := mkReference o g,
          offset := Int.ofNat endPos, devicePos := endPos, dirty := false,
          isTrailer := false, loadOnDemand := false, encrypted := enc,
          delayedLoadDone := true, delayedLoadStreamDone := false,
          hasStreamToParse := false, streamOffset := 0, stream := none } := by
  have het : strncmpMatches "endobj" "endobj" = true := rfl
  by_cases hlo : lOffset < 0
  · simp [parseFile, readObjectNumber, seekRecordedOffset,
      initPdfParserObject, delayedLoad, parseFileComplete, hft, het,
      Except.map, hlo, Int.natCast_nonneg]
  · have h0 : (0 : Int) ≤ lOffset := Int.not_lt.mp hlo
    simp [parseFile, readObjectNumber, seekRecordedOffset,
      initPdfParserObject, delayedLoad, parseFileComplete, hft, het,
      Except.map, hlo, h0]

/-- Witness for parseFile_empty_object: the spec scenario
"7 0 obj endobj" yields reference (7,0), a null value and no stream. -/
theorem parseFile_empty_object_witness :
    parseFile ⟨.ok 7, .ok 0, "obj", 8⟩ ⟨some "endobj", .ok .null, none, 0⟩
        none false (initPdfParserObject 0 0) =
    .ok { variant := .null, ref := ⟨7, 0⟩, offset := 8, devicePos := 8,
          dirty := false, isTrailer := false, loadOnDemand := false,
          encrypted := none, delayedLoadDone := true,
          delayedLoadStreamDone := false, hasStreamToParse := false,
          streamOffset := 0, stream := none } := by
  have h := parseFile_empty_object 7 0 0 0 8
    ⟨some "endobj", .ok .null, none, 0⟩ none rfl
  simpa [mkReference] using h

lemma seekRecordedOffset_eta (st : ParserState) :
    seekRecordedOffset st =
      { st with devicePos := (seekRecordedOffset st).devicePos } := by
  unfold seekRecordedOffset
  split <;> rfl

lemma parseFileComplete_trailer_preserves (run : TokenizerRun)
    (st st2 : ParserState) (h : parseFileComplete run true st = .ok st2) :
    st2.hasStreamToParse = st.hasStreamToParse ∧ st2.stream = st.stream ∧
    st2.delayedLoadStreamDone = st.delayedLoadStreamDone := by
  unfold parseFileComplete at h
  repeat' split at h
  all_goals first
    | exact absurd rfl ‹¬true = true›
    | (cases h; exact ⟨rfl, rfl, rfl⟩)
    | exact absurd h (by simp)

lemma parseFile_trailer_preserves (hdr : HeaderInput) (run : TokenizerRun)
    (enc : Option EncryptCtx) (st st1 : ParserState)
    (h : parseFile hdr run enc true st = .ok st1) :
    st1.hasStreamToParse = st.hasStreamToParse ∧ st1.stream = st.stream ∧
    st1.delayedLoadStreamDone = st.delayedLoadStreamDone := by
  unfold parseFile at h
  rw [seekRecordedOffset_eta st] at h
  simp only [reduceIte] at h
  split at h
  · cases h
    exact ⟨rfl, rfl, rfl⟩
  · unfold delayedLoad at h
    split at h
    · cases h
      exact ⟨rfl, rfl, rfl⟩
    · split at h
      · exact absurd h (by simp)
      · cases h
        rename_i s hpc
        have hp := parseFileComplete_trailer_preserves run _ s hpc
        exact ⟨hp.1, hp.2.1, hp.2.2⟩

/-- C10: a trailer parse skips the post-value token check, so the object
is never marked as having a stream to parse; a stream-load on an object
not so marked is a no-op; hence an object freshly parsed as a trailer
never acquires stream bytes. -/
theorem trailer_never_acquires_stream :
    (∀ run st st2, parseFileComplete run true st = .ok st2 →
      st2.hasStreamToParse = st.hasStreamToParse ∧ st2.stream = st.stream) ∧
    (∀ dev go p dec st, st.hasStreamToParse = false →
      delayedLoadStreamImpl dev go p dec st = .ok st) ∧
    (∀ (hdr : HeaderInput) (run : TokenizerRun) (enc : Option EncryptCtx)
       (lOffset : Int) (devTell : Nat) (b : Bool) (dev : Device)
       (go : PdfReference → Option PdfVariant) (p : Nat)
       (dec : PdfReference → List Nat → List Nat) (st1 st2 : ParserState),
      parseFile hdr run enc true
        (setLoadOnDemand b (initPdfParserObject lOffset devTell)) = .ok st1 →
      delayedLoadStream dev go p dec st1 = .ok st2 →
      st2.stream = none ∧ st2.hasStreamToParse = false) := by
  refine ⟨?_, ?_, ?_⟩
  · intro run st st2 h
    have hp := parseFileComplete_trailer_preserves run st st2 h
    exact ⟨hp.1, hp.2.1⟩
  · intro dev go p dec st h
    unfold delayedLoadStreamImpl
    simp [h]
  · intro hdr run enc lOffset devTell b dev go p dec st1 st2 hpf hdls
    obtain ⟨hhs, hstr, hdlsd⟩ := parseFile_trailer_preserves hdr run enc _ _ hpf
    have hhs1 : st1.hasStreamToParse = false := hhs
    have hstr1 : st1.stream = none := hstr
    have hdlsd1 : st1.delayedLoadStreamDone = false := hdlsd
    unfold delayedLoadStream at hdls
    rw [hdlsd1] at hdls
    simp only [Bool.false_eq_true, if_false] at hdls
    unfold delayedLoadStreamImpl at hdls
    rw [hhs1] at hdls
    simp only [Bool.false_eq_true, if_false] at hdls
    cases hdls
    exact ⟨hstr1, hhs1⟩

/-- Witness for trailer_never_acquires_stream: a concrete trailer parse
followed by a stream-load leaves the object with no stream. -/
theorem trailer_never_acquires_stream_witness :
    (parseFile ⟨.ok 0, .ok 0, "obj", 0⟩
      ⟨some "<<", .ok (.dict [("Size", .number 4)]), some "stream", 7⟩
      none true (setLoadOnDemand true (initPdfParserObject 2 0)) =
        .ok { variant := .null, offset := 2, devicePos := 2,
              isTrailer := true, loadOnDemand := true }) ∧
    (delayedLoadStream ⟨[10, 65], 0⟩ (fun _ => none) 0 (fun _ xs => xs)
      { variant := .null, offset := 2, devicePos := 2,
        isTrailer := true, loadOnDemand := true } =
        .ok { variant := .null, offset := 2, devicePos := 2,
              isTrailer := true, loadOnDemand := true,
              delayedLoadStreamDone := true }) ∧
    ParserState.stream
      { variant := .null, offset := 2, devicePos := 2,
        isTrailer := true, loadOnDemand := true,
        delayedLoadStreamDone := true } = none := by
  refine ⟨rfl, rfl, ?_⟩
  exact (trailer_never_acquires_stream.2.2 ⟨.ok 0, .ok 0, "obj", 0⟩
    ⟨some "<<", .ok (.dict [("Size", .number 4)]), some "stream", 7⟩
    none 2 0 true ⟨[10, 65], 0⟩ (fun _ => none) 0 (fun _ xs => xs)
    { variant := .null, offset := 2, devicePos := 2,
      isTrailer := true, loadOnDemand := true }
    { variant := .null, offset := 2, devicePos := 2,
      isTrailer := true, loadOnDemand := true,
      delayedLoadStreamDone := true } rfl rfl).1

end PdfParser
